import Mathlib

/-!
Verification development for the Zellous client SDK (src/zellous-sdk.js).

The development shallowly embeds the SDK's data model and operations:

* `Json` models the plain JavaScript values that travel through the SDK
  (messages are keyed records with a `type` discriminant).  Numbers are
  modelled as integers: every numeric field of the wire taxonomy
  (ids, timestamps, limits) is integral, and floating point is out of
  scope of the embedding.
* `strJ` / `parseV` model the host primitives `JSON.stringify` and
  `JSON.parse` that `_pack` (line 212) and `_unpack` (line 216) call:
  `strJ` emits exactly the grammar `JSON.stringify` produces on such
  values (including string escaping), and `parseV` reads it back.
  The parser is lenient in ways `JSON.parse` is strict (it accepts
  leading zeros and raw control characters in strings) and it does not
  skip whitespace; `strJ` emits neither, so the codec claims are
  unaffected.
* the `Zellous` namespace embeds the SDK class itself: one Lean function
  per method, acting on an explicit `SDK` state that mirrors the fields
  initialised in the constructor (lines 2-17) plus explicit host state
  (outstanding timers, transmitted frames) and observation logs
  (emissions, handler invocations, caught handler errors).
-/

mutual

/-- JavaScript values exchanged through the SDK, as a mutual inductive so
that all recursions over a value are structural.  `obj` fields are kept in
insertion order, like JS object keys. -/
inductive Json where
  | null : Json
  | bool (b : Bool) : Json
  | num (n : Int) : Json
  | str (s : String) : Json
  | arr (xs : JArr) : Json
  | obj (fs : JObj) : Json

/-- Ordered list of array elements. -/
inductive JArr where
  | nil : JArr
  | cons (hd : Json) (tl : JArr) : JArr

/-- Ordered list of object fields (key, value). -/
inductive JObj where
  | nil : JObj
  | cons (k : String) (v : Json) (tl : JObj) : JObj

end

/-- Build a `JObj` from a Lean list, for readable message literals. -/
def jobjL : List (String × Json) → JObj
  | [] => JObj.nil
  | (k, v) :: t => JObj.cons k v (jobjL t)

/-- Build an object `Json` value from a list of fields. -/
def jobj (l : List (String × Json)) : Json := Json.obj (jobjL l)

/-- Build a `JArr` from a Lean list. -/
def jarrL : List Json → JArr
  | [] => JArr.nil
  | j :: t => JArr.cons j (jarrL t)

/-- Build an array `Json` value from a list. -/
def jarr (l : List Json) : Json := Json.arr (jarrL l)

/-- Property lookup on an object's field list: first binding wins, like
reading a JS object property (the SDK never builds duplicate keys). -/
def jGetO : JObj → String → Option Json
  | JObj.nil, _ => none
  | JObj.cons k v t, key => if k = key then some v else jGetO t key

/-- Model of the JS property access `msg.field`: `none` plays the role of
`undefined` (absent property or non-object receiver). -/
def jGet (j : Json) (key : String) : Option Json :=
  match j with
  | Json.obj fs => jGetO fs key
  | _ => none

/-- Property access defaulted to `null`; used where the source embeds a
possibly-absent property into a fresh object literal. -/
def jGetD (j : Json) (key : String) : Json := (jGet j key).getD Json.null

/-- Discriminant `msg.type` of an inbound message.  When the property is
missing or not a string the source would use the JS value `undefined` as
an event key; the embedding uses the string "undefined". -/
def msgType (j : Json) : String :=
  match jGet j "type" with
  | some (Json.str s) => s
  | _ => "undefined"

/-- Number of fields of an object. -/
def jlen : JObj → Nat
  | JObj.nil => 0
  | JObj.cons _ _ t => jlen t + 1

mutual

/-- Structural (deep) equality of JS values, insensitive to object key
order, with fuel to keep the recursion structural.  Adequate for the
duplicate-free objects the SDK builds. -/
def jeqv : Nat → Json → Json → Bool
  | 0, _, _ => false
  | f + 1, a, b =>
    match a, b with
    | Json.null, Json.null => true
    | Json.bool x, Json.bool y => x == y
    | Json.num x, Json.num y => x == y
    | Json.str x, Json.str y => x == y
    | Json.arr xs, Json.arr ys => jeqvA f xs ys
    | Json.obj fs, Json.obj gs => jlen fs == jlen gs && jsub f fs gs
    | _, _ => false

/-- Elementwise structural equality of arrays. -/
def jeqvA : Nat → JArr → JArr → Bool
  | 0, _, _ => false
  | _ + 1, JArr.nil, JArr.nil => true
  | f + 1, JArr.cons x xt, JArr.cons y yt => jeqv f x y && jeqvA f xt yt
  | _ + 1, _, _ => false

/-- Every field of the first object is matched by a structurally equal
field of the second. -/
def jsub : Nat → JObj → JObj → Bool
  | 0, _, _ => false
  | _ + 1, JObj.nil, _ => true
  | f + 1, JObj.cons k v t, gs =>
    (match jGetO gs k with
     | some w => jeqv f v w
     | none => false) && jsub f t gs

end

/-- Decimal digit character, `48 + n` for `n < 10`. -/
def digitChar (n : Nat) : Char := Char.ofNat (48 + n)

/-- Lower-case hexadecimal digit character for `n < 16`, as
`JSON.stringify` emits in control-character escapes. -/
def hexDig (n : Nat) : Char :=
  if n < 10 then Char.ofNat (48 + n) else Char.ofNat (87 + n)

/-- Big-endian decimal digits of `n`, with fuel bounding the number of
digits; `natToChars` supplies ample fuel. -/
def natChars : Nat → Nat → List Char
  | 0, _ => []
  | f + 1, n =>
    if n < 10 then [digitChar n]
    else natChars f (n / 10) ++ [digitChar (n % 10)]

/-- Decimal rendering of a natural number. -/
def natToChars (n : Nat) : List Char := natChars (n + 1) n

/-- Escape of one character inside a JSON string literal, exactly as
`JSON.stringify` produces it: the two mandatory escapes, the five short
escapes, `\u00xx` for the remaining control characters, and the
character itself otherwise. -/
def escChar (c : Char) : List Char :=
  if c = '"' then ['\\', '"']
  else if c = '\\' then ['\\', '\\']
  else if c = '\x08' then ['\\', 'b']
  else if c = '\x09' then ['\\', 't']
  else if c = '\x0a' then ['\\', 'n']
  else if c = '\x0c' then ['\\', 'f']
  else if c = '\x0d' then ['\\', 'r']
  else if c.toNat < 32 then
    ['\\', 'u', '0', '0', hexDig (c.toNat / 16), hexDig (c.toNat % 16)]
  else [c]

/-- Escaped body of a string literal. -/
def escBody : List Char → List Char
  | [] => []
  | c :: t => escChar c ++ escBody t

/-- Rendering of a complete string literal, quotes included. -/
def strLit (s : String) : List Char := '"' :: (escBody s.data ++ ['"'])

/-- Rendering of an integer, mirroring how `JSON.stringify` prints the
integral numbers of the wire taxonomy. -/
def intChars (n : Int) : List Char :=
  match n with
  | Int.ofNat m => natToChars m
  | Int.negSucc m => '-' :: natToChars (m + 1)

mutual

/-- Model of `JSON.stringify` on a value: the exact character stream the
host serializer emits (no whitespace). -/
def strJ : Json → List Char
  | Json.null => ['n', 'u', 'l', 'l']
  | Json.bool true => ['t', 'r', 'u', 'e']
  | Json.bool false => ['f', 'a', 'l', 's', 'e']
  | Json.num n => intChars n
  | Json.str s => strLit s
  | Json.arr xs => '[' :: strA xs
  | Json.obj fs => '{' :: strO fs

/-- Array body after the opening bracket: first element (if any) and then
the comma-separated tail, closing bracket included. -/
def strA : JArr → List Char
  | JArr.nil => [']']
  | JArr.cons v tl => strJ v ++ strARest tl

/-- Comma-separated remainder of an array body. -/
def strARest : JArr → List Char
  | JArr.nil => [']']
  | JArr.cons v tl => ',' :: (strJ v ++ strARest tl)

/-- Object body after the opening brace. -/
def strO : JObj → List Char
  | JObj.nil => ['}']
  | JObj.cons k v tl => strLit k ++ (':' :: strJ v) ++ strORest tl

/-- Comma-separated remainder of an object body. -/
def strORest : JObj → List Char
  | JObj.nil => ['}']
  | JObj.cons k v tl => ',' :: (strLit k ++ (':' :: strJ v) ++ strORest tl)

end

/-- Whole-string serialization, the `JSON.stringify` call of `_pack`. -/
def stringifyS (j : Json) : String := String.mk (strJ j)

/-- Value of an unsigned digit run. -/
def digitsVal (cs : List Char) : Nat :=
  cs.foldl (fun a c => a * 10 + (c.toNat - 48)) 0

/-- Decimal digit test on characters. -/
def isDigitC (c : Char) : Bool := 48 ≤ c.toNat && c.toNat ≤ 57

/-- Longest digit run at the head of the input, and the rest. -/
def digitSpan : List Char → List Char × List Char
  | [] => ([], [])
  | c :: rest =>
    if isDigitC c then
      let (a, b) := digitSpan rest
      (c :: a, b)
    else ([], c :: rest)

/-- Does the input start with a digit? -/
def headDigit : List Char → Bool
  | [] => false
  | c :: _ => isDigitC c

/-- Consume an expected literal character sequence. -/
def dropLit : List Char → List Char → Option (List Char)
  | [], cs => some cs
  | p :: ps, c :: cs => if c = p then dropLit ps cs else none
  | _ :: _, [] => none

/-- Value of a hexadecimal digit character, either case. -/
def hexVal (c : Char) : Option Nat :=
  if 48 ≤ c.toNat ∧ c.toNat ≤ 57 then some (c.toNat - 48)
  else if 97 ≤ c.toNat ∧ c.toNat ≤ 102 then some (c.toNat - 87)
  else if 65 ≤ c.toNat ∧ c.toNat ≤ 70 then some (c.toNat - 55)
  else none

/-- Value of a four-digit hexadecimal escape. -/
def hex4 (a b c d : Char) : Option Nat := do
  let va ← hexVal a
  let vb ← hexVal b
  let vc ← hexVal c
  let vd ← hexVal d
  some (((va * 16 + vb) * 16 + vc) * 16 + vd)

/-- Unescape of the single-character escapes of JSON. -/
def unescSimple (c : Char) : Option Char :=
  if c = '"' then some '"'
  else if c = '\\' then some '\\'
  else if c = '/' then some '/'
  else if c = 'b' then some '\x08'
  else if c = 'f' then some '\x0c'
  else if c = 'n' then some '\x0a'
  else if c = 'r' then some '\x0d'
  else if c = 't' then some '\x09'
  else none

/-- Body of a string literal after the opening quote: content up to the
closing quote, and the remaining input. -/
def parseStrBody : List Char → Option (List Char × List Char)
  | [] => none
  | c :: rest =>
    if c = '"' then some ([], rest)
    else if c = '\\' then
      match rest with
      | [] => none
      | e :: rest2 =>
        if e = 'u' then
          match rest2 with
          | a :: b :: c2 :: d :: rest3 =>
            match hex4 a b c2 d with
            | none => none
            | some n =>
              match parseStrBody rest3 with
              | none => none
              | some (cs, r) => some (Char.ofNat n :: cs, r)
          | _ => none
        else
          match unescSimple e with
          | none => none
          | some u =>
            match parseStrBody rest2 with
            | none => none
            | some (cs, r) => some (u :: cs, r)
    else
      match parseStrBody rest with
      | none => none
      | some (cs, r) => some (c :: cs, r)

mutual

/-- Model of `JSON.parse` on one value: recursive descent with fuel, on
the grammar `strJ` emits. -/
def parseV : Nat → List Char → Option (Json × List Char)
  | 0, _ => none
  | f + 1, cs =>
    match cs with
    | [] => none
    | c :: rest =>
      if c = 'n' then (dropLit ['u', 'l', 'l'] rest).map (fun r => (Json.null, r))
      else if c = 't' then (dropLit ['r', 'u', 'e'] rest).map (fun r => (Json.bool true, r))
      else if c = 'f' then (dropLit ['a', 'l', 's', 'e'] rest).map (fun r => (Json.bool false, r))
      else if c = '"' then
        match parseStrBody rest with
        | none => none
        | some (s, r) => some (Json.str (String.mk s), r)
      else if c = '[' then parseArr f rest
      else if c = '{' then parseObj f rest
      else if c = '-' then
        let (ds, r) := digitSpan rest
        if ds = [] then none else some (Json.num (-(Int.ofNat (digitsVal ds))), r)
      else if isDigitC c then
        let (ds, r) := digitSpan rest
        some (Json.num (Int.ofNat (digitsVal (c :: ds))), r)
      else none

/-- Array parser, entered after `[`. -/
def parseArr : Nat → List Char → Option (Json × List Char)
  | 0, _ => none
  | f + 1, cs =>
    match cs with
    | [] => none
    | c :: cs2 =>
      if c = ']' then some (Json.arr JArr.nil, cs2)
      else
        match parseV f (c :: cs2) with
        | none => none
        | some (v, r1) =>
          match parseArrRest f r1 with
          | none => none
          | some (tl, r2) => some (Json.arr (JArr.cons v tl), r2)

/-- Remainder of an array: a comma and an element, or the closing
bracket. -/
def parseArrRest : Nat → List Char → Option (JArr × List Char)
  | 0, _ => none
  | f + 1, cs =>
    match cs with
    | [] => none
    | c :: cs2 =>
      if c = ']' then some (JArr.nil, cs2)
      else if c = ',' then
        match parseV f cs2 with
        | none => none
        | some (v, r1) =>
          match parseArrRest f r1 with
          | none => none
          | some (tl, r2) => some (JArr.cons v tl, r2)
      else none

/-- One object member after the key's opening quote has been consumed:
key body, colon, value, then the remainder of the object. -/
def parseMember : Nat → List Char → Option ((String × Json) × JObj × List Char)
  | 0, _ => none
  | f + 1, cs =>
    match parseStrBody cs with
    | none => none
    | some (k, r1) =>
      match r1 with
      | [] => none
      | c :: r2 =>
        if c = ':' then
          match parseV f r2 with
          | none => none
          | some (v, r3) =>
            match parseObjRest f r3 with
            | none => none
            | some (tl, r4) => some ((String.mk k, v), tl, r4)
        else none

/-- Object parser, entered after `{`. -/
def parseObj : Nat → List Char → Option (Json × List Char)
  | 0, _ => none
  | f + 1, cs =>
    match cs with
    | [] => none
    | c :: cs2 =>
      if c = '}' then some (Json.obj JObj.nil, cs2)
      else if c = '"' then
        match parseMember f cs2 with
        | none => none
        | some ((k, v), tl, r) => some (Json.obj (JObj.cons k v tl), r)
      else none

/-- Remainder of an object: a comma and a member, or the closing
brace. -/
def parseObjRest : Nat → List Char → Option (JObj × List Char)
  | 0, _ => none
  | f + 1, cs =>
    match cs with
    | [] => none
    | c :: cs2 =>
      if c = '}' then some (JObj.nil, cs2)
      else if c = ',' then
        match cs2 with
        | [] => none
        | c2 :: cs3 =>
          if c2 = '"' then
            match parseMember f cs3 with
            | none => none
            | some ((k, v), tl, r) => some (JObj.cons k v tl, r)
          else none
      else none

end

/-- Whole-string parse, the `JSON.parse` call of `_unpack`: the input
must be one value with nothing after it, anything else is a parse error
(`JSON.parse` throws, modelled as `none`).  Fuel `2 * length + 2`
dominates the recursion depth on any input the serializer produces. -/
def parseS (s : String) : Option Json :=
  match parseV (2 * s.data.length + 2) s.data with
  | some (j, []) => some j
  | _ => none

/-- Wire frames of the transport: `_pack` wraps the serialized text in a
`Blob`; inbound frames may be a `Blob` or plain text (lines 216-222). -/
inductive Wire where
  | blob (s : String) : Wire
  | text (s : String) : Wire

/-- Behaviour of a user-registered handler closure, the fragment the
event-bus claims exercise: do nothing, raise an error, synchronously
re-emit an event, or capture identity as the `connection_established`
resolver of `connect` (lines 54-58) does. -/
inductive Behavior where
  | pure : Behavior
  | throws : Behavior
  | reemit (ev : String) (payload : Json) : Behavior
  | setIdentity : Behavior

/-- One registered handler.  JS distinguishes handlers by function
reference; the embedding gives each registration a numeric id.  A
registration made through `once` carries `isOnce = true`: its wrapper
(lines 142-145) removes the registration before delegating. -/
structure HandlerE where
  id : Nat
  isOnce : Bool
  behavior : Behavior

/-- Transport readiness, mirroring the WebSocket readyState constants. -/
inductive ReadyState where
  | connecting : ReadyState
  | opened : ReadyState
  | closing : ReadyState
  | closed : ReadyState
deriving DecidableEq

/-- The transport handle created by `connect` (line 22). -/
structure WSHandle where
  url : String
  readyState : ReadyState

/-- Constructor options with the defaults of lines 3-8 (the source's
`autoReconnect !== false` test is what makes `true` the default). -/
structure Options where
  serverUrl : String := "ws://localhost:3000"
  autoReconnect : Bool := true
  reconnectDelay : Nat := 3000

/-- Complete state of one SDK instance.  The first block mirrors the
fields assigned in the constructor (lines 10-16); `listeners` is the
`Map` as an insertion-ordered association list.  The second block is
explicit host state: the set of outstanding `setTimeout` timers, a
counter for fresh timer handles, a counter standing in for the fresh
function references `once`-wrappers get, and the frames written to the
socket.  The third block is observation logs: every `emit` call with its
payload, every invocation of a user handler (by id), and every handler
error caught by `emit`'s try/catch. -/
structure SDK where
  options : Options
  ws : Option WSHandle
  clientId : Option Json
  roomId : Option Json
  user : Option Json
  listeners : List (String × List HandlerE)
  reconnectTimer : Option Nat
  connected : Bool
  pendingTimers : List Nat
  nextTimer : Nat
  nextHid : Nat
  sentFrames : List Wire
  emitted : List (String × Json)
  invoked : List Nat
  caught : List Nat

/-- A fresh instance, lines 2-17. -/
def mkSDK (o : Options) : SDK :=
  { options := o, ws := none, clientId := none, roomId := none, user := none,
    listeners := [], reconnectTimer := none, connected := false,
    pendingTimers := [], nextTimer := 0, nextHid := 0, sentFrames := [],
    emitted := [], invoked := [], caught := [] }

/-- Lookup in the listener map (`Map.get`). -/
def getLs : List (String × List HandlerE) → String → Option (List HandlerE)
  | [], _ => none
  | (k, hs) :: t, ev => if k = ev then some hs else getLs t ev

/-- Update in the listener map (`Map.set`); a new key is appended,
preserving insertion order. -/
def setLs : List (String × List HandlerE) → String → List HandlerE → List (String × List HandlerE)
  | [], ev, hs => [(ev, hs)]
  | (k, old) :: t, ev, hs => if k = ev then (ev, hs) :: t else (k, old) :: setLs t ev hs

/-- Removal of the first handler with the given id, the
`indexOf`/`splice` pair of lines 152-155 (absent handler: no-op). -/
def removeFirstId : List HandlerE → Nat → List HandlerE
  | [], _ => []
  | h :: t, i => if h.id = i then t else h :: removeFirstId t i

namespace Zellous

/-- Method `off` (lines 149-156): unknown event or unregistered handler
is a no-op, otherwise the first matching registration is spliced out of
the live array. -/
def off (sys : SDK) (ev : String) (hid : Nat) : SDK :=
  match getLs sys.listeners ev with
  | none => sys
  | some hs => { sys with listeners := setLs sys.listeners ev (removeFirstId hs hid) }

/-- Method `on` (lines 133-139): create the array on first use, then
push.  The returned unsubscribe closure is not needed by the claims. -/
def onE (sys : SDK) (ev : String) (h : HandlerE) : SDK :=
  match getLs sys.listeners ev with
  | none => { sys with listeners := setLs sys.listeners ev [h] }
  | some hs => { sys with listeners := setLs sys.listeners ev (hs ++ [h]) }

/-- Method `once` (lines 141-147): registers a wrapper that first
removes itself and then delegates; `isOnce = true` makes `busRun`
perform exactly that order. -/
def once (sys : SDK) (ev : String) (hid : Nat) (b : Behavior) : SDK :=
  Zellous.onE sys ev { id := hid, isOnce := true, behavior := b }

end Zellous

/-- Pending synchronous work of the bus: an `emit` call not yet
dispatched, or a `forEach` loop over the live handler array at index `i`
of an iteration whose range was fixed at `len` elements (JS `forEach`
fixes the range when iteration starts but reads the live, spliced
array). -/
inductive BusTask where
  | emitT (ev : String) (data : Json) : BusTask
  | loopT (ev : String) (data : Json) (i : Nat) (len : Nat) : BusTask

/-- Log an `emit` call (observation only). -/
def recordEmit (sys : SDK) (ev : String) (data : Json) : SDK :=
  { sys with emitted := sys.emitted ++ [(ev, data)] }

/-- Log the invocation of a user handler (observation only). -/
def recordInvoke (sys : SDK) (hid : Nat) : SDK :=
  { sys with invoked := sys.invoked ++ [hid] }

/-- Log a handler error caught by `emit`'s try/catch (observation
only). -/
def recordCaught (sys : SDK) (hid : Nat) : SDK :=
  { sys with caught := sys.caught ++ [hid] }

/-- Effect of the `connection_established` resolver (lines 55-56):
`this.clientId = data.clientId; this.user = data.user`. -/
def applyIdentity (sys : SDK) (data : Json) : SDK :=
  { sys with clientId := jGet data "clientId", user := jGet data "user" }

/-- Start of one handler invocation: a `once` wrapper first removes its
own registration (lines 142-145), then the user handler runs (logged). -/
def invokePre (sys : SDK) (ev : String) (h : HandlerE) : SDK :=
  recordInvoke (if h.isOnce then Zellous.off sys ev h.id else sys) h.id

/-- Executes bus work to completion, structurally on fuel so that runs
evaluate by kernel reduction.  `emitT` is method `emit` (lines 158-168):
the call is logged, then absent events return at once, otherwise the
handler array is iterated.  `loopT` performs one `forEach` step: a
`once` wrapper deregisters itself before its user handler runs (lines
142-145); the user handler's invocation is logged and its behaviour
applied; a raised error is caught and logged by the surrounding
try/catch and iteration continues; a synchronous re-emission runs to
completion (LIFO) before the loop resumes, as a nested call would. -/
def busRun : Nat → SDK → List BusTask → SDK
  | 0, sys, _ => sys
  | _ + 1, sys, [] => sys
  | f + 1, sys, BusTask.emitT ev data :: rest =>
    match getLs (recordEmit sys ev data).listeners ev with
    | none => busRun f (recordEmit sys ev data) rest
    | some hs =>
      busRun f (recordEmit sys ev data) (BusTask.loopT ev data 0 hs.length :: rest)
  | f + 1, sys, BusTask.loopT ev data i len :: rest =>
    if i < len then
      match getLs sys.listeners ev with
      | none => busRun f sys rest
      | some hs =>
        match hs[i]? with
        | none => busRun f sys (BusTask.loopT ev data (i + 1) len :: rest)
        | some h =>
          match h.behavior with
          | Behavior.pure =>
            busRun f (invokePre sys ev h) (BusTask.loopT ev data (i + 1) len :: rest)
          | Behavior.throws =>
            busRun f (recordCaught (invokePre sys ev h) h.id)
              (BusTask.loopT ev data (i + 1) len :: rest)
          | Behavior.setIdentity =>
            busRun f (applyIdentity (invokePre sys ev h) data)
              (BusTask.loopT ev data (i + 1) len :: rest)
          | Behavior.reemit ev2 p =>
            busRun f (invokePre sys ev h)
              (BusTask.emitT ev2 p :: BusTask.loopT ev data (i + 1) len :: rest)
    else busRun f sys rest

namespace Zellous

/-- Method `emit` (lines 158-168), with fuel for handler re-emission. -/
def emit (f : Nat) (sys : SDK) (ev : String) (data : Json) : SDK :=
  busRun f sys [BusTask.emitT ev data]

/-- Method `_pack` (lines 212-214): serialize, wrap in a `Blob`. -/
def pack (j : Json) : Wire := Wire.blob (stringifyS j)

/-- Method `_unpack` (lines 216-222): a `Blob` is read as text, anything
else parsed directly; a `JSON.parse` failure (the method throwing) is
`none`. -/
def unpack : Wire → Option Json
  | Wire.blob s => parseS s
  | Wire.text s => parseS s

/-- Method `send` (lines 170-176): with no handle or a non-OPEN handle
it throws "WebSocket not connected" before touching anything, otherwise
the packed frame goes out on the socket.  The state is returned next to
the outcome so a throw provably leaves the instance as it was. -/
def send (sys : SDK) (message : Json) : Except String Unit × SDK :=
  match sys.ws with
  | none => (Except.error "WebSocket not connected", sys)
  | some w =>
    if w.readyState = ReadyState.opened then
      (Except.ok (), { sys with sentFrames := sys.sentFrames ++ [Zellous.pack message] })
    else (Except.error "WebSocket not connected", sys)

/-- Method `sendMessage` (lines 82-87): only the default type "text"
sends anything; the resolved value is `{success: true}` either way. -/
def sendMessage (sys : SDK) (content : Json) (ty : String) : Except String Json × SDK :=
  if ty = "text" then
    match Zellous.send sys (jobj [("type", Json.str "text_message"), ("content", content)]) with
    | (Except.ok _, s) => (Except.ok (jobj [("success", Json.bool true)]), s)
    | (Except.error e, s) => (Except.error e, s)
  else (Except.ok (jobj [("success", Json.bool true)]), sys)

/-- Method `joinRoom` (lines 74-80), its synchronous part: a failed
`send` propagates before anything else runs; on success `this.roomId`
is assigned immediately (line 76) and a one-shot `room_joined`
subscription is installed whose handler resolves the returned promise
(the resolution itself is outside the model). -/
def joinRoom (sys : SDK) (roomId : String) : Except String Unit × SDK :=
  match Zellous.send sys (jobj [("type", Json.str "join_room"), ("roomId", Json.str roomId)]) with
  | (Except.error e, s) => (Except.error e, s)
  | (Except.ok _, s) =>
    let s1 := { s with roomId := some (Json.str roomId) }
    (Except.ok (),
      Zellous.once { s1 with nextHid := s1.nextHid + 1 } "room_joined" s1.nextHid Behavior.pure)

/-- Method `_handleMessage` (lines 178-210): raw emission under the
message's own tag, then the catch-all `message` emission, then the
tag-specific derivation or state capture. -/
def handleMessage (f : Nat) (sys : SDK) (msg : Json) : SDK :=
  let s := Zellous.emit f sys (msgType msg) msg
  let s := Zellous.emit f s "message" msg
  match msgType msg with
  | "connection_established" =>
    { s with clientId := jGet msg "clientId", user := jGet msg "user" }
  | "room_joined" => { s with roomId := jGet msg "roomId" }
  | "text_message" | "image_message" | "file_shared" =>
    Zellous.emit f s "chat_message" msg
  | "user_joined" =>
    Zellous.emit f s "user_presence"
      (jobj [("type", Json.str "joined"), ("user", jGetD msg "user"),
             ("userId", jGetD msg "userId")])
  | "user_left" =>
    Zellous.emit f s "user_presence"
      (jobj [("type", Json.str "left"), ("userId", jGetD msg "userId")])
  | "speaker_joined" =>
    Zellous.emit f s "voice_presence"
      (jobj [("type", Json.str "joined"), ("userId", jGetD msg "userId"),
             ("user", jGetD msg "user")])
  | "speaker_left" =>
    Zellous.emit f s "voice_presence"
      (jobj [("type", Json.str "left"), ("userId", jGetD msg "userId"),
             ("user", jGetD msg "user")])
  | _ => s

/-- Synchronous part of method `connect` (lines 19-59): a new transport
handle replaces the old one, and a one-shot `connection_established`
subscription is installed whose handler captures identity and resolves
the returned promise.  The transport callbacks it assigns are modelled
by `onOpen`, `onMessage`, `onError` and `onClose` below, applied when
the environment delivers the corresponding transport event. -/
def connect (sys : SDK) (token : Option String) : SDK :=
  let url :=
    match token with
    | some t => sys.options.serverUrl ++ "?token=" ++ t
    | none => sys.options.serverUrl
  let s := { sys with ws := some { url := url, readyState := ReadyState.connecting } }
  Zellous.once { s with nextHid := s.nextHid + 1 } "connection_established" s.nextHid
    Behavior.setIdentity

/-- Transport open callback (lines 24-28). -/
def onOpen (f : Nat) (sys : SDK) : SDK :=
  let s := { sys with
    connected := true,
    ws := sys.ws.map (fun w => { w with readyState := ReadyState.opened }) }
  Zellous.emit f s "connected" Json.null

/-- Transport message callback (lines 30-33): an inbound frame that
fails to unpack rejects the async handler — `_handleMessage` never runs
for it, no event is emitted, and nothing else is touched. -/
def onMessage (f : Nat) (sys : SDK) (raw : Wire) : SDK :=
  match Zellous.unpack raw with
  | some m => Zellous.handleMessage f sys m
  | none => sys

/-- Transport error callback (lines 35-39); the error object is
modelled as `null`, the promise rejection is outside the model. -/
def onError (f : Nat) (sys : SDK) : SDK :=
  Zellous.emit f sys "error" Json.null

/-- Effect of the `setTimeout` call of lines 47-50 on the state: the
host gains one outstanding timer, whose handle the instance stores in
`reconnectTimer`.  The timer's later firing is a separate environment
step the claims do not need. -/
def scheduleReconnect (sys : SDK) : SDK :=
  { sys with reconnectTimer := some sys.nextTimer,
             pendingTimers := sys.pendingTimers ++ [sys.nextTimer],
             nextTimer := sys.nextTimer + 1 }

/-- Transport close callback (lines 41-52): emit `disconnected`, then
schedule a reconnect timer if the policy is on and no timer is already
pending. -/
def onClose (f : Nat) (sys : SDK) : SDK :=
  let s := Zellous.emit f { sys with connected := false } "disconnected" Json.null
  if s.options.autoReconnect && s.reconnectTimer.isNone then scheduleReconnect s
  else s

/-- Method `disconnect` (lines 62-72): cancel a pending reconnect timer
(the host forgets it), drop the transport handle (its `close()` makes
the host deliver a close event later, modelled as a subsequent `onClose`
step), and clear `connected`.  No other state is touched: in particular
nothing records that the disconnect was requested by the caller. -/
def disconnect (sys : SDK) : SDK :=
  let s :=
    match sys.reconnectTimer with
    | some t => { sys with reconnectTimer := none, pendingTimers := sys.pendingTimers.erase t }
    | none => sys
  match s.ws with
  | some _ => { s with ws := none, connected := false }
  | none => { s with connected := false }

end Zellous

/-- A stream of inbound frames, delivered in order (line 30 fires once
per frame). -/
def onMessages (f : Nat) (sys : SDK) (raws : List Wire) : SDK :=
  raws.foldl (Zellous.onMessage f) sys

/-- Iterated transport close events. -/
def iterClose (f : Nat) : Nat → SDK → SDK
  | 0, sys => sys
  | n + 1, sys => iterClose f n (Zellous.onClose f sys)

/-- The guard of `send` (line 171) as a predicate: a transport handle
exists and is OPEN. -/
def wsOpen (sys : SDK) : Bool :=
  match sys.ws with
  | some w => w.readyState == ReadyState.opened
  | none => false

/-- The fields the reconnect-timer claims observe: the options, the
timer handle the instance holds, the outstanding host timers, the next
fresh handle.  Bus activity never touches them. -/
def timerView (sys : SDK) : Options × Option Nat × List Nat × Nat :=
  (sys.options, sys.reconnectTimer, sys.pendingTimers, sys.nextTimer)

/-- A connected instance: fresh state after the transport opened
(readyState OPEN, `connected` set by the open callback). -/
def sdkOpenEx : SDK :=
  { mkSDK {} with
    ws := some { url := "ws://localhost:3000", readyState := ReadyState.opened },
    connected := true }

/-- The run of claim C1: construct with defaults (auto-reconnect on),
connect, transport opens, the caller disconnects, and then the close
event for the closed socket arrives. -/
def c1Trace : SDK :=
  Zellous.onClose 10 (Zellous.disconnect (Zellous.onOpen 10 (Zellous.connect (mkSDK {}) none)))

/-- The inbound `user_joined` message of claim C7. -/
def msg7 : Json :=
  jobj [("type", Json.str "user_joined"), ("userId", Json.num 7),
        ("user", jobj [("username", Json.str "al")])]

/-- The derived presence payload as line 198 constructs it. -/
def derived7 : Json :=
  jobj [("type", Json.str "joined"), ("user", jobj [("username", Json.str "al")]),
        ("userId", Json.num 7)]

/-- The derived presence payload as claim C7 writes it (same fields,
different key order). -/
def target7 : Json :=
  jobj [("type", Json.str "joined"), ("userId", Json.num 7),
        ("user", jobj [("username", Json.str "al")])]

/-- A well-formed inbound frame (the packed C7 message), used to show
processing continues after a malformed one. -/
def wValid : Wire := Wire.blob (stringifyS msg7)

mutual

/-- Fuel `parseV` needs on the rendering of a value. -/
def sizeV : Json → Nat
  | Json.null => 1
  | Json.bool _ => 1
  | Json.num _ => 1
  | Json.str _ => 1
  | Json.arr xs => 1 + sizeR xs
  | Json.obj fs => 1 + sizeO fs

/-- Fuel `parseArrRest` needs on an array remainder. -/
def sizeR : JArr → Nat
  | JArr.nil => 1
  | JArr.cons v tl => 1 + sizeV v + sizeR tl

/-- Fuel `parseObj` / `parseObjRest` need on an object body or
remainder (one step for the entry, one for `parseMember`). -/
def sizeO : JObj → Nat
  | JObj.nil => 1
  | JObj.cons _ v tl => 2 + sizeV v + sizeO tl

end

/-! ## Frame lemmas: bus activity never touches the reconnect machinery -/

@[simp]
theorem timerView_recordEmit (sys : SDK) (ev : String) (d : Json) :
    timerView (recordEmit sys ev d) = timerView sys := rfl

@[simp]
theorem timerView_recordInvoke (sys : SDK) (hid : Nat) :
    timerView (recordInvoke sys hid) = timerView sys := rfl

@[simp]
theorem timerView_recordCaught (sys : SDK) (hid : Nat) :
    timerView (recordCaught sys hid) = timerView sys := rfl

@[simp]
theorem timerView_applyIdentity (sys : SDK) (d : Json) :
    timerView (applyIdentity sys d) = timerView sys := rfl

@[simp]
theorem timerView_off (sys : SDK) (ev : String) (hid : Nat) :
    timerView (Zellous.off sys ev hid) = timerView sys := by
  unfold Zellous.off
  cases getLs sys.listeners ev <;> rfl

@[simp]
theorem timerView_invokePre (sys : SDK) (ev : String) (h : HandlerE) :
    timerView (invokePre sys ev h) = timerView sys := by
  unfold invokePre
  cases ho : h.isOnce <;> simp

theorem timerView_busRun (f : Nat) : ∀ (sys : SDK) (ts : List BusTask),
    timerView (busRun f sys ts) = timerView sys := by
  induction f with
  | zero => intro sys ts; rfl
  | succ f ih =>
    intro sys ts
    cases ts with
    | nil => rfl
    | cons t rest =>
      cases t with
      | emitT ev data =>
        simp only [busRun]
        cases getLs (recordEmit sys ev data).listeners ev <;> simp [ih]
      | loopT ev data i len =>
        simp only [busRun]
        split
        · split
          · simp [ih]
          · split
            · simp [ih]
            · split <;> simp [ih]
        · simp [ih]

theorem emit_fields (f : Nat) (sys : SDK) (ev : String) (d : Json) :
    (Zellous.emit f sys ev d).options = sys.options ∧
    (Zellous.emit f sys ev d).reconnectTimer = sys.reconnectTimer ∧
    (Zellous.emit f sys ev d).pendingTimers = sys.pendingTimers ∧
    (Zellous.emit f sys ev d).nextTimer = sys.nextTimer := by
  have h := timerView_busRun f sys [BusTask.emitT ev d]
  simpa [Zellous.emit, timerView, Prod.ext_iff] using h

@[simp]
theorem emit_options (f : Nat) (sys : SDK) (ev : String) (d : Json) :
    (Zellous.emit f sys ev d).options = sys.options := (emit_fields f sys ev d).1

@[simp]
theorem emit_reconnectTimer (f : Nat) (sys : SDK) (ev : String) (d : Json) :
    (Zellous.emit f sys ev d).reconnectTimer = sys.reconnectTimer :=
  (emit_fields f sys ev d).2.1

@[simp]
theorem emit_pendingTimers (f : Nat) (sys : SDK) (ev : String) (d : Json) :
    (Zellous.emit f sys ev d).pendingTimers = sys.pendingTimers :=
  (emit_fields f sys ev d).2.2.1

@[simp]
theorem emit_nextTimer (f : Nat) (sys : SDK) (ev : String) (d : Json) :
    (Zellous.emit f sys ev d).nextTimer = sys.nextTimer :=
  (emit_fields f sys ev d).2.2.2

@[simp]
theorem onE_roomId (sys : SDK) (ev : String) (h : HandlerE) :
    (Zellous.onE sys ev h).roomId = sys.roomId := by
  unfold Zellous.onE
  cases getLs sys.listeners ev <;> rfl

/-! ## Send lemmas -/

theorem send_closed (sys : SDK) (m : Json) (h : wsOpen sys = false) :
    Zellous.send sys m = (Except.error "WebSocket not connected", sys) := by
  unfold wsOpen at h
  unfold Zellous.send
  cases hw : sys.ws with
  | none => rfl
  | some w =>
    rw [hw] at h
    rw [beq_eq_false_iff_ne] at h
    simp [h]

theorem send_open (sys : SDK) (m : Json) (h : wsOpen sys = true) :
    Zellous.send sys m =
      (Except.ok (), { sys with sentFrames := sys.sentFrames ++ [Zellous.pack m] }) := by
  unfold wsOpen at h
  unfold Zellous.send
  cases hw : sys.ws with
  | none => rw [hw] at h; cases h
  | some w =>
    rw [hw] at h
    simp only [beq_iff_eq] at h
    simp [h]

/-! ## Reconnect-timer lemmas -/

theorem onClose_schedules (f : Nat) (sys : SDK)
    (har : sys.options.autoReconnect = true) (ht : sys.reconnectTimer = none) :
    (Zellous.onClose f sys).reconnectTimer = some sys.nextTimer ∧
    (Zellous.onClose f sys).pendingTimers = sys.pendingTimers ++ [sys.nextTimer] := by
  simp [Zellous.onClose, Zellous.scheduleReconnect, har, ht]

theorem onClose_keeps (f : Nat) (sys : SDK) (t : Nat) (ht : sys.reconnectTimer = some t) :
    (Zellous.onClose f sys).reconnectTimer = some t ∧
    (Zellous.onClose f sys).pendingTimers = sys.pendingTimers := by
  simp [Zellous.onClose, Zellous.scheduleReconnect, ht]

theorem iterClose_keeps (f n : Nat) : ∀ (sys : SDK) (t : Nat),
    sys.reconnectTimer = some t →
    (iterClose f n sys).reconnectTimer = some t ∧
    (iterClose f n sys).pendingTimers = sys.pendingTimers := by
  induction n with
  | zero => intro sys t ht; exact ⟨ht, rfl⟩
  | succ n ih =>
    intro sys t ht
    obtain ⟨k1, k2⟩ := onClose_keeps f sys t ht
    obtain ⟨j1, j2⟩ := ih (Zellous.onClose f sys) t k1
    exact ⟨j1, by rw [show iterClose f (n + 1) sys = iterClose f n (Zellous.onClose f sys) from rfl, j2, k2]⟩

/-! ## Claims -/

/-- Claim C1.  The claim states that after `disconnect()` a subsequent
transport close event never schedules a reconnect while auto-reconnect
is enabled.  The code violates this: `disconnect` (lines 62-72) clears
the timer and the handle but records nothing else, so the close handler
(lines 46-51), which only checks `options.autoReconnect` and
`reconnectTimer`, schedules a reconnect anyway.  This theorem evaluates
the model on the failing run — construct with defaults, connect, open,
`disconnect()`, close event — and shows a reconnect timer is scheduled,
contradicting the claim and the SDK's own README ("Disconnect from the
server and stop auto-reconnect"). -/
theorem claim_C1_disconnect_close_schedules_reconnect :
    c1Trace.reconnectTimer = some 0 ∧ c1Trace.pendingTimers = [0] :=
  ⟨rfl, rfl⟩

/-- Claim C2, counterexample.  The claim states `roomId` is set only
after a `room_joined` confirmation and that `joinRoom` alone leaves it
unchanged.  On a connected instance that has never received any message
(`emitted = []`), one `joinRoom("r1")` call already moves `roomId` from
`none` to `"r1"` (line 76 assigns right after the send), refuting the
claim. -/
theorem claim_C2_joinRoom_sets_roomId_eagerly :
    sdkOpenEx.roomId = none ∧ sdkOpenEx.emitted = [] ∧
    (Zellous.joinRoom sdkOpenEx "r1").2.roomId = some (Json.str "r1") :=
  ⟨rfl, rfl, rfl⟩

/-- Claim C2, amended.  `joinRoom` sets `roomId` itself, immediately
after its send succeeds and before any `room_joined` confirmation
arrives (a `room_joined` message also sets it, via `_handleMessage`);
only when the send throws is `roomId` left unchanged. -/
theorem claim_C2_amended_joinRoom_roomId (sys : SDK) (r : String) :
    (wsOpen sys = true →
      (Zellous.joinRoom sys r).1 = Except.ok () ∧
      (Zellous.joinRoom sys r).2.roomId = some (Json.str r)) ∧
    (wsOpen sys = false → (Zellous.joinRoom sys r).2.roomId = sys.roomId) := by
  constructor
  · intro h
    unfold Zellous.joinRoom
    rw [send_open _ _ h]
    refine ⟨rfl, ?_⟩
    simp [Zellous.once]
  · intro h
    unfold Zellous.joinRoom
    rw [send_closed _ _ h]

/-- Witness for the amended C2 at a concrete connected instance. -/
theorem claim_C2_amended_witness :
    wsOpen sdkOpenEx = true ∧
    (Zellous.joinRoom sdkOpenEx "r1").1 = Except.ok () ∧
    (Zellous.joinRoom sdkOpenEx "r1").2.roomId = some (Json.str "r1") :=
  ⟨rfl, (claim_C2_amended_joinRoom_roomId sdkOpenEx "r1").1 rfl⟩

/-- Claim C3, counterexample.  The claim states a payload that fails
structural decoding "is surfaced as an error event".  Feeding the
unparsable frame "x" to a connected instance with an empty emission log
leaves the state identical — in particular no `error` (nor any other)
event is emitted: the `JSON.parse` exception escapes the async
`onmessage` handler as an unhandled rejection (lines 30-33) and nothing
is surfaced through the bus. -/
theorem claim_C3_no_error_event_on_decode_failure :
    Zellous.unpack (Wire.text "x") = none ∧
    Zellous.onMessage 10 sdkOpenEx (Wire.text "x") = sdkOpenEx ∧
    (Zellous.onMessage 10 sdkOpenEx (Wire.text "x")).emitted = [] :=
  ⟨rfl, rfl, rfl⟩

/-- Claim C3, amended.  A wire payload that cannot be parsed affects
that message only: the instance is left exactly as it was (no lifecycle
change, connection not terminated) and subsequent inbound messages are
processed as if the bad frame had never arrived; but the failure is not
surfaced as an error event — the message is silently dropped, the parse
exception escaping as an unhandled asynchronous rejection. -/
theorem claim_C3_amended_decode_failure_isolated (f : Nat) (sys : SDK) (raw : Wire)
    (rest : List Wire) (h : Zellous.unpack raw = none) :
    Zellous.onMessage f sys raw = sys ∧
    onMessages f sys (raw :: rest) = onMessages f sys rest := by
  have h1 : Zellous.onMessage f sys raw = sys := by
    unfold Zellous.onMessage
    rw [h]
  exact ⟨h1, by simp [onMessages, h1]⟩

/-- Witness for the amended C3: the bad frame "x" is dropped and the
following valid `user_joined` frame is processed identically either
way. -/
theorem claim_C3_amended_witness :
    Zellous.onMessage 10 sdkOpenEx (Wire.text "x") = sdkOpenEx ∧
    onMessages 10 sdkOpenEx [Wire.text "x", wValid] = onMessages 10 sdkOpenEx [wValid] :=
  claim_C3_amended_decode_failure_isolated 10 sdkOpenEx (Wire.text "x") [wValid] rfl

/-- Claim C4.  A handler registered through `once` on an event is
removed strictly before the user handler runs (the wrapper of lines
142-145 calls `off` first), so emitting the event twice invokes the
user handler exactly once — whatever the handler does, including
re-emitting the same or any other event from inside its own
invocation. -/
theorem claim_C4_once_exactly_once (ev : String) (hid : Nat) (b : Behavior) :
    (Zellous.emit 9 (Zellous.emit 9 (Zellous.once (mkSDK {}) ev hid b) ev Json.null)
        ev Json.null).invoked = [hid] := by
  cases b with
  | reemit ev2 p =>
    by_cases h2 : ev2 = ev
    · subst h2
      simp [Zellous.emit, Zellous.once, Zellous.onE, Zellous.off, busRun, getLs, setLs, mkSDK,
        removeFirstId, recordEmit, recordInvoke, recordCaught, invokePre]
    · have h3 : (ev = ev2) = False := by simp [Ne.symm h2]
      simp [Zellous.emit, Zellous.once, Zellous.onE, Zellous.off, busRun, getLs, setLs, mkSDK,
        removeFirstId, recordEmit, recordInvoke, recordCaught, invokePre, h2, h3]
  | pure =>
    simp [Zellous.emit, Zellous.once, Zellous.onE, Zellous.off, busRun, getLs, setLs, mkSDK,
      removeFirstId, recordEmit, recordInvoke, recordCaught, invokePre]
  | throws =>
    simp [Zellous.emit, Zellous.once, Zellous.onE, Zellous.off, busRun, getLs, setLs, mkSDK,
      removeFirstId, recordEmit, recordInvoke, recordCaught, invokePre]
  | setIdentity =>
    simp [Zellous.emit, Zellous.once, Zellous.onE, Zellous.off, busRun, getLs, setLs, mkSDK,
      removeFirstId, recordEmit, recordInvoke, recordCaught, invokePre, applyIdentity]

/-- Claim C5.  With two handlers registered on an event where the first
raises an error, emitting the event still invokes the second handler in
the same emission (the first two logged invocations are the two
handlers, in registration order), and the first handler's error is
caught by `emit`'s per-handler try/catch (lines 162-166) instead of
propagating to the caller of `emit`. -/
theorem claim_C5_handler_isolation (ev : String) (i1 i2 : Nat) (b2 : Behavior) :
    ((Zellous.emit 5 (Zellous.onE (Zellous.onE (mkSDK {}) ev ⟨i1, false, Behavior.throws⟩)
        ev ⟨i2, false, b2⟩) ev Json.null).invoked.take 2 = [i1, i2]) ∧
    (i1 ∈ (Zellous.emit 5 (Zellous.onE (Zellous.onE (mkSDK {}) ev ⟨i1, false, Behavior.throws⟩)
        ev ⟨i2, false, b2⟩) ev Json.null).caught) := by
  cases b2 with
  | reemit ev2 p =>
    by_cases h2 : ev2 = ev
    · subst h2
      simp [Zellous.emit, Zellous.onE, Zellous.off, busRun, getLs, setLs, mkSDK,
        removeFirstId, recordEmit, recordInvoke, recordCaught, invokePre]
    · have h3 : (ev = ev2) = False := by simp [Ne.symm h2]
      simp [Zellous.emit, Zellous.onE, Zellous.off, busRun, getLs, setLs, mkSDK,
        removeFirstId, recordEmit, recordInvoke, recordCaught, invokePre, h2, h3]
  | pure =>
    simp [Zellous.emit, Zellous.onE, Zellous.off, busRun, getLs, setLs, mkSDK,
      removeFirstId, recordEmit, recordInvoke, recordCaught, invokePre]
  | throws =>
    simp [Zellous.emit, Zellous.onE, Zellous.off, busRun, getLs, setLs, mkSDK,
      removeFirstId, recordEmit, recordInvoke, recordCaught, invokePre]
  | setIdentity =>
    simp [Zellous.emit, Zellous.onE, Zellous.off, busRun, getLs, setLs, mkSDK,
      removeFirstId, recordEmit, recordInvoke, recordCaught, invokePre, applyIdentity]

/-- Claim C7.  Handling the inbound `user_joined` message
`{userId: 7, user: {username: 'al'}}` emits, in this order: the raw
`user_joined` event with the original payload, the catch-all `message`
event with the original payload, and the derived `user_presence` event
whose payload is structurally equal to
`{type: 'joined', userId: 7, user: {username: 'al'}}` (the source
builds the same fields in the order type, user, userId). -/
theorem claim_C7_user_joined_derivation :
    (Zellous.handleMessage 9 (mkSDK {}) msg7).emitted =
      [("user_joined", msg7), ("message", msg7), ("user_presence", derived7)] ∧
    jeqv 9 derived7 target7 = true :=
  ⟨rfl, rfl⟩

/-- Claim C8.  While auto-reconnect is enabled, any burst of transport
close events starting from a state with no pending reconnect timer
leaves exactly one outstanding timer: the first close schedules one,
and every further close sees `reconnectTimer` set (line 46) and
schedules nothing. -/
theorem claim_C8_single_reconnect_timer (f n : Nat) (sys : SDK)
    (har : sys.options.autoReconnect = true)
    (ht : sys.reconnectTimer = none)
    (hp : sys.pendingTimers = []) :
    (iterClose f (n + 1) sys).pendingTimers.length = 1 := by
  show (iterClose f n (Zellous.onClose f sys)).pendingTimers.length = 1
  obtain ⟨o1, o2⟩ := onClose_schedules f sys har ht
  obtain ⟨k1, k2⟩ := iterClose_keeps f n (Zellous.onClose f sys) sys.nextTimer o1
  rw [k2, o2, hp]
  rfl

/-- Witness for C8: three rapid closes on a fresh default instance
leave exactly one outstanding timer. -/
theorem claim_C8_witness :
    (mkSDK {}).options.autoReconnect = true ∧
    (iterClose 10 3 (mkSDK {})).pendingTimers.length = 1 :=
  ⟨rfl, claim_C8_single_reconnect_timer 10 2 (mkSDK {}) rfl rfl rfl⟩

/-- Claim C9.  `sendMessage` (default type "text") on an instance with
no open transport fails with the "WebSocket not connected" error thrown
by `send` (line 172) to its immediate caller, and the returned state is
the input state unchanged: nothing is queued (`sentFrames` equal),
the event-bus registrations and the lifecycle state are untouched. -/
theorem claim_C9_send_while_disconnected (sys : SDK) (content : Json)
    (h : wsOpen sys = false) :
    Zellous.sendMessage sys content "text" =
      (Except.error "WebSocket not connected", sys) := by
  unfold Zellous.sendMessage
  rw [if_pos rfl, send_closed _ _ h]

/-- Witness for C9 on a fresh (never connected) instance. -/
theorem claim_C9_witness :
    wsOpen (mkSDK {}) = false ∧
    Zellous.sendMessage (mkSDK {}) (Json.str "hi") "text" =
      (Except.error "WebSocket not connected", mkSDK {}) :=
  ⟨rfl, claim_C9_send_while_disconnected (mkSDK {}) (Json.str "hi") rfl⟩

/-- Claim C10.  `sendMessage(content, type)` with any type other than
"text" transmits nothing (line 83 guards the only send) yet still
resolves with `{success: true}`, on any state — even a disconnected
one, since `send` is never reached. -/
theorem claim_C10_nontext_sendMessage_silent_success (sys : SDK) (content : Json)
    (ty : String) (h : ty ≠ "text") :
    Zellous.sendMessage sys content ty =
      (Except.ok (jobj [("success", Json.bool true)]), sys) := by
  unfold Zellous.sendMessage
  rw [if_neg h]

/-- Witness for C10: an "image"-typed sendMessage on a disconnected
fresh instance succeeds and sends nothing. -/
theorem claim_C10_witness :
    wsOpen (mkSDK {}) = false ∧
    Zellous.sendMessage (mkSDK {}) (Json.str "hi") "image" =
      (Except.ok (jobj [("success", Json.bool true)]), mkSDK {}) :=
  ⟨rfl, claim_C10_nontext_sendMessage_silent_success (mkSDK {}) (Json.str "hi") "image"
    (by decide)⟩

/-! ## Codec round trip: digits -/

theorem digitChar_toNat : ∀ n < 10, (digitChar n).toNat = 48 + n := by decide

theorem isDigitC_digitChar : ∀ n < 10, isDigitC (digitChar n) = true := by decide

theorem hexVal_hexDig : ∀ n < 16, hexVal (hexDig n) = some n := by decide

theorem natChars_digits (f : Nat) : ∀ n, (natChars f n).all isDigitC = true := by
  induction f with
  | zero => intro n; rfl
  | succ f ih =>
    intro n
    unfold natChars
    by_cases h : n < 10
    · simp [h, isDigitC_digitChar n h]
    · simp only [if_neg h, List.all_append]
      simp [ih (n / 10), isDigitC_digitChar (n % 10) (Nat.mod_lt n (by omega))]

theorem digitsVal_append_single (xs : List Char) (c : Char) :
    digitsVal (xs ++ [c]) = digitsVal xs * 10 + (c.toNat - 48) := by
  simp [digitsVal, List.foldl_append]

theorem digitsVal_natChars (f : Nat) : ∀ n, n < 10 ^ f → digitsVal (natChars f n) = n := by
  induction f with
  | zero => intro n h; interval_cases n; rfl
  | succ f ih =>
    intro n h
    unfold natChars
    by_cases h10 : n < 10
    · simp [h10, digitsVal, digitChar_toNat n h10]
    · rw [if_neg h10, digitsVal_append_single,
        ih (n / 10) (by rw [Nat.div_lt_iff_lt_mul (by omega)]; rw [pow_succ] at h; omega),
        digitChar_toNat (n % 10) (Nat.mod_lt n (by omega))]
      omega

theorem digitsVal_natToChars (n : Nat) : digitsVal (natToChars n) = n :=
  digitsVal_natChars (n + 1) n
    (lt_of_lt_of_le (Nat.lt_pow_self (by norm_num) n)
      (Nat.pow_le_pow_right (by norm_num) (Nat.le_succ n)))

theorem natToChars_digits (n : Nat) : (natToChars n).all isDigitC = true :=
  natChars_digits (n + 1) n

theorem natChars_cons (f n : Nat) : ∃ c t, natChars (f + 1) n = c :: t ∧ isDigitC c = true := by
  unfold natChars
  by_cases h : n < 10
  · exact ⟨digitChar n, [], by simp [h, isDigitC_digitChar n h]⟩
  · rw [if_neg h]
    cases hc : natChars f (n / 10) with
    | nil =>
      exact ⟨digitChar (n % 10), [],
        by simp [isDigitC_digitChar (n % 10) (Nat.mod_lt n (by omega))]⟩
    | cons c t =>
      refine ⟨c, t ++ [digitChar (n % 10)], by simp, ?_⟩
      have hall := natChars_digits f (n / 10)
      rw [hc] at hall
      simp [List.all_cons] at hall
      exact hall.1

theorem natToChars_cons (n : Nat) : ∃ c t, natToChars n = c :: t ∧ isDigitC c = true :=
  natChars_cons n n

theorem digitSpan_append (xs : List Char) (rest : List Char)
    (hx : xs.all isDigitC = true) (hr : headDigit rest = false) :
    digitSpan (xs ++ rest) = (xs, rest) := by
  induction xs with
  | nil =>
    cases rest with
    | nil => rfl
    | cons c t =>
      simp only [headDigit] at hr
      simp [digitSpan, hr]
  | cons c t ih =>
    simp only [List.all_cons, Bool.and_eq_true] at hx
    simp [digitSpan, hx.1, ih hx.2]

/-! ## Codec round trip: string literals -/

theorem psb_escape (e u : Char) (t : List Char)
    (hu : unescSimple e = some u) (hne : e ≠ 'u') :
    parseStrBody ('\\' :: e :: t) =
      match parseStrBody t with
      | none => none
      | some (cs, r) => some (u :: cs, r) := by
  rw [parseStrBody.eq_def]
  dsimp only
  rw [if_neg (by decide : ¬('\\' : Char) = '"'), if_pos (rfl : ('\\' : Char) = '\\'),
    if_neg hne, hu]

theorem psb_unicode (a b c2 d : Char) (t : List Char) :
    parseStrBody ('\\' :: 'u' :: a :: b :: c2 :: d :: t) =
      match hex4 a b c2 d with
      | none => none
      | some n =>
        match parseStrBody t with
        | none => none
        | some (cs, r) => some (Char.ofNat n :: cs, r) := by
  rw [parseStrBody.eq_def]
  dsimp only
  rw [if_neg (by decide : ¬('\\' : Char) = '"'), if_pos (rfl : ('\\' : Char) = '\\'),
    if_pos (rfl : ('u' : Char) = 'u')]

theorem psb_plain (c : Char) (t : List Char) (h1 : c ≠ '"') (h2 : c ≠ '\\') :
    parseStrBody (c :: t) =
      match parseStrBody t with
      | none => none
      | some (cs, r) => some (c :: cs, r) := by
  rw [parseStrBody.eq_def]
  dsimp only
  rw [if_neg h1, if_neg h2]

theorem parseStrBody_esc (c : Char) (t : List Char) :
    parseStrBody (escChar c ++ t) =
      match parseStrBody t with
      | none => none
      | some (cs, r) => some (c :: cs, r) := by
  unfold escChar
  by_cases h1 : c = '"'
  · subst h1; exact psb_escape _ _ _ (by decide) (by decide)
  · rw [if_neg h1]
    by_cases h2 : c = '\\'
    · subst h2; exact psb_escape _ _ _ (by decide) (by decide)
    · rw [if_neg h2]
      by_cases h3 : c = '\x08'
      · subst h3; exact psb_escape _ _ _ (by decide) (by decide)
      · rw [if_neg h3]
        by_cases h4 : c = '\x09'
        · subst h4; exact psb_escape _ _ _ (by decide) (by decide)
        · rw [if_neg h4]
          by_cases h5 : c = '\x0a'
          · subst h5; exact psb_escape _ _ _ (by decide) (by decide)
          · rw [if_neg h5]
            by_cases h6 : c = '\x0c'
            · subst h6; exact psb_escape _ _ _ (by decide) (by decide)
            · rw [if_neg h6]
              by_cases h7 : c = '\x0d'
              · subst h7; exact psb_escape _ _ _ (by decide) (by decide)
              · rw [if_neg h7]
                by_cases h8 : c.toNat < 32
                · rw [if_pos h8]
                  have hhi : c.toNat / 16 < 16 := by omega
                  have hlo : c.toNat % 16 < 16 := by omega
                  show parseStrBody ('\\' :: 'u' :: '0' :: '0' :: hexDig (c.toNat / 16) ::
                    hexDig (c.toNat % 16) :: t) = _
                  rw [psb_unicode]
                  simp only [hex4, hexVal_hexDig _ hhi, hexVal_hexDig _ hlo,
                    (by decide : hexVal '0' = some 0)]
                  simp only [Option.bind_eq_bind, Option.some_bind]
                  have hval : ((0 * 16 + 0) * 16 + c.toNat / 16) * 16 + c.toNat % 16 = c.toNat := by
                    omega
                  rw [hval, Char.ofNat_toNat]
                · rw [if_neg h8]
                  show parseStrBody (c :: t) = _
                  exact psb_plain c t h1 h2

theorem parseStrBody_escBody (cs rest : List Char) :
    parseStrBody (escBody cs ++ '"' :: rest) = some (cs, rest) := by
  induction cs with
  | nil =>
    show parseStrBody ('"' :: rest) = _
    rw [parseStrBody.eq_def]
    dsimp only
    rw [if_pos rfl]
  | cons c t ih =>
    show parseStrBody ((escChar c ++ escBody t) ++ '"' :: rest) = _
    rw [List.append_assoc, parseStrBody_esc, ih]

theorem parseStrBody_strLit (s : String) (rest : List Char) :
    parseStrBody (escBody s.data ++ '"' :: rest) = some (s.data, rest) :=
  parseStrBody_escBody s.data rest

theorem digit_head_ne (c : Char) (h : isDigitC c = true) :
    c ≠ 'n' ∧ c ≠ 't' ∧ c ≠ 'f' ∧ c ≠ '"' ∧ c ≠ '[' ∧ c ≠ '{' ∧ c ≠ '-' ∧ c ≠ ']' := by
  refine ⟨?_, ?_, ?_, ?_, ?_, ?_, ?_, ?_⟩ <;>
    (intro he; subst he; exact absurd h (by decide))

theorem headDigit_strARest (tl : JArr) (rest : List Char) :
    headDigit (strARest tl ++ rest) = false := by
  cases tl <;> rfl

theorem headDigit_strORest (tl : JObj) (rest : List Char) :
    headDigit (strORest tl ++ rest) = false := by
  cases tl <;> rfl

theorem strJ_head_spec (v : Json) : ∃ c t, strJ v = c :: t ∧ c ≠ ']' := by
  cases v with
  | null => exact ⟨'n', _, rfl, by decide⟩
  | bool b => cases b with
    | true => exact ⟨'t', _, rfl, by decide⟩
    | false => exact ⟨'f', _, rfl, by decide⟩
  | num n =>
    cases n with
    | ofNat m =>
      obtain ⟨c, t, hct, hd⟩ := natToChars_cons m
      exact ⟨c, t, hct, (digit_head_ne c hd).2.2.2.2.2.2.2⟩
    | negSucc m => exact ⟨'-', _, rfl, by decide⟩
  | str s => exact ⟨'"', _, rfl, by decide⟩
  | arr xs => exact ⟨'[', _, rfl, by decide⟩
  | obj fs => exact ⟨'{', _, rfl, by decide⟩

mutual

theorem parseV_strJ : ∀ (j : Json) (f : Nat) (rest : List Char),
    headDigit rest = false → parseV (sizeV j + f) (strJ j ++ rest) = some (j, rest)
  | Json.null, f, rest, _hr => by
    show parseV (1 + f) (['n', 'u', 'l', 'l'] ++ rest) = _
    rw [Nat.add_comm 1 f]
    rfl
  | Json.bool true, f, rest, _hr => by
    show parseV (1 + f) (['t', 'r', 'u', 'e'] ++ rest) = _
    rw [Nat.add_comm 1 f]
    rfl
  | Json.bool false, f, rest, _hr => by
    show parseV (1 + f) (['f', 'a', 'l', 's', 'e'] ++ rest) = _
    rw [Nat.add_comm 1 f]
    rfl
  | Json.num (Int.ofNat m), f, rest, hr => by
    obtain ⟨c, t, hct, hd⟩ := natToChars_cons m
    obtain ⟨hn1, hn2, hn3, hn4, hn5, hn6, hn7, _⟩ := digit_head_ne c hd
    show parseV (1 + f) (natToChars m ++ rest) = _
    rw [Nat.add_comm 1 f, hct]
    simp only [List.cons_append]
    rw [parseV.eq_def]
    dsimp only
    rw [if_neg hn1, if_neg hn2, if_neg hn3, if_neg hn4, if_neg hn5, if_neg hn6, if_neg hn7,
      if_pos hd]
    have ht : t.all isDigitC = true := by
      have hall := natToChars_digits m
      rw [hct, List.all_cons, Bool.and_eq_true] at hall
      exact hall.2
    rw [digitSpan_append t rest ht hr]
    have hv : digitsVal (c :: t) = m := by
      rw [← hct]
      exact digitsVal_natToChars m
    rw [hv]
  | Json.num (Int.negSucc m), f, rest, hr => by
    show parseV (1 + f) (('-' :: natToChars (m + 1)) ++ rest) = _
    rw [Nat.add_comm 1 f]
    simp only [List.cons_append]
    rw [parseV.eq_def]
    dsimp only
    rw [if_neg (by decide : ¬('-' : Char) = 'n'), if_neg (by decide : ¬('-' : Char) = 't'),
      if_neg (by decide : ¬('-' : Char) = 'f'), if_neg (by decide : ¬('-' : Char) = '"'),
      if_neg (by decide : ¬('-' : Char) = '['), if_neg (by decide : ¬('-' : Char) = '{'),
      if_pos (rfl : ('-' : Char) = '-')]
    rw [digitSpan_append (natToChars (m + 1)) rest (natToChars_digits (m + 1)) hr]
    obtain ⟨c, t, hct, _hd⟩ := natToChars_cons (m + 1)
    rw [hct]
    rw [if_neg (by simp : ¬(c :: t : List Char) = [])]
    have hv : digitsVal (c :: t) = m + 1 := by
      rw [← hct]
      exact digitsVal_natToChars (m + 1)
    rw [hv]
    rfl
  | Json.str s, f, rest, _hr => by
    show parseV (1 + f) (('"' :: (escBody s.data ++ ['"'])) ++ rest) = _
    rw [Nat.add_comm 1 f]
    simp only [List.cons_append, List.append_assoc, List.singleton_append, List.nil_append]
    rw [parseV.eq_def]
    dsimp only
    rw [if_neg (by decide : ¬('"' : Char) = 'n'), if_neg (by decide : ¬('"' : Char) = 't'),
      if_neg (by decide : ¬('"' : Char) = 'f'), if_pos (rfl : ('"' : Char) = '"')]
    rw [parseStrBody_escBody s.data rest]
  | Json.arr xs, f, rest, _hr => by
    show parseV ((1 + sizeR xs) + f) (('[' :: strA xs) ++ rest) = _
    rw [show (1 + sizeR xs) + f = (sizeR xs + f) + 1 from by omega]
    simp only [List.cons_append]
    rw [parseV.eq_def]
    dsimp only
    rw [if_neg (by decide : ¬('[' : Char) = 'n'), if_neg (by decide : ¬('[' : Char) = 't'),
      if_neg (by decide : ¬('[' : Char) = 'f'), if_neg (by decide : ¬('[' : Char) = '"'),
      if_pos (rfl : ('[' : Char) = '[')]
    exact parseArr_strA xs f rest
  | Json.obj fs, f, rest, _hr => by
    show parseV ((1 + sizeO fs) + f) (('{' :: strO fs) ++ rest) = _
    rw [show (1 + sizeO fs) + f = (sizeO fs + f) + 1 from by omega]
    simp only [List.cons_append]
    rw [parseV.eq_def]
    dsimp only
    rw [if_neg (by decide : ¬('{' : Char) = 'n'), if_neg (by decide : ¬('{' : Char) = 't'),
      if_neg (by decide : ¬('{' : Char) = 'f'), if_neg (by decide : ¬('{' : Char) = '"'),
      if_neg (by decide : ¬('{' : Char) = '['), if_pos (rfl : ('{' : Char) = '{')]
    exact parseObj_strO fs f rest

theorem parseArr_strA : ∀ (xs : JArr) (f : Nat) (rest : List Char),
    parseArr (sizeR xs + f) (strA xs ++ rest) = some (Json.arr xs, rest)
  | JArr.nil, f, rest => by
    show parseArr (1 + f) ([']'] ++ rest) = _
    rw [Nat.add_comm 1 f]
    rfl
  | JArr.cons v tl, f, rest => by
    obtain ⟨c, t, hcv, hne⟩ := strJ_head_spec v
    show parseArr ((1 + sizeV v + sizeR tl) + f) ((strJ v ++ strARest tl) ++ rest) = _
    rw [show (1 + sizeV v + sizeR tl) + f = (sizeV v + (sizeR tl + f)) + 1 from by omega]
    rw [List.append_assoc, hcv]
    simp only [List.cons_append]
    rw [parseArr.eq_def]
    dsimp only
    rw [if_neg hne]
    rw [show (c :: (t ++ (strARest tl ++ rest)) : List Char) =
      strJ v ++ (strARest tl ++ rest) from by rw [hcv]; simp]
    rw [parseV_strJ v (sizeR tl + f) (strARest tl ++ rest) (headDigit_strARest tl rest)]
    dsimp only
    rw [show sizeV v + (sizeR tl + f) = sizeR tl + (sizeV v + f) from by omega]
    rw [parseArrRest_strARest tl (sizeV v + f) rest]

theorem parseArrRest_strARest : ∀ (xs : JArr) (f : Nat) (rest : List Char),
    parseArrRest (sizeR xs + f) (strARest xs ++ rest) = some (xs, rest)
  | JArr.nil, f, rest => by
    show parseArrRest (1 + f) ([']'] ++ rest) = _
    rw [Nat.add_comm 1 f]
    rfl
  | JArr.cons v tl, f, rest => by
    show parseArrRest ((1 + sizeV v + sizeR tl) + f) ((',' :: (strJ v ++ strARest tl)) ++ rest) = _
    rw [show (1 + sizeV v + sizeR tl) + f = (sizeV v + (sizeR tl + f)) + 1 from by omega]
    simp only [List.cons_append, List.append_assoc]
    rw [parseArrRest.eq_def]
    dsimp only
    rw [if_neg (by decide : ¬(',' : Char) = ']'), if_pos (rfl : (',' : Char) = ',')]
    rw [parseV_strJ v (sizeR tl + f) (strARest tl ++ rest) (headDigit_strARest tl rest)]
    dsimp only
    rw [show sizeV v + (sizeR tl + f) = sizeR tl + (sizeV v + f) from by omega]
    rw [parseArrRest_strARest tl (sizeV v + f) rest]

theorem parseObj_strO : ∀ (fs : JObj) (f : Nat) (rest : List Char),
    parseObj (sizeO fs + f) (strO fs ++ rest) = some (Json.obj fs, rest)
  | JObj.nil, f, rest => by
    show parseObj (1 + f) (['}'] ++ rest) = _
    rw [Nat.add_comm 1 f]
    rfl
  | JObj.cons k v tl, f, rest => by
    show parseObj ((2 + sizeV v + sizeO tl) + f)
      ((('"' :: (escBody k.data ++ ['"'])) ++ (':' :: strJ v) ++ strORest tl) ++ rest) = _
    rw [show (2 + sizeV v + sizeO tl) + f = ((sizeV v + (sizeO tl + f)) + 1) + 1 from by omega]
    simp only [List.cons_append, List.append_assoc, List.singleton_append, List.nil_append]
    rw [parseObj.eq_def]
    dsimp only
    rw [if_neg (by decide : ¬('"' : Char) = '}'), if_pos (rfl : ('"' : Char) = '"')]
    rw [parseMember.eq_def]
    dsimp only
    rw [parseStrBody_escBody k.data (':' :: (strJ v ++ (strORest tl ++ rest)))]
    dsimp only
    rw [if_pos (rfl : (':' : Char) = ':')]
    rw [parseV_strJ v (sizeO tl + f) (strORest tl ++ rest) (headDigit_strORest tl rest)]
    dsimp only
    rw [show sizeV v + (sizeO tl + f) = sizeO tl + (sizeV v + f) from by omega]
    rw [parseObjRest_strORest tl (sizeV v + f) rest]

theorem parseObjRest_strORest : ∀ (fs : JObj) (f : Nat) (rest : List Char),
    parseObjRest (sizeO fs + f) (strORest fs ++ rest) = some (fs, rest)
  | JObj.nil, f, rest => by
    show parseObjRest (1 + f) (['}'] ++ rest) = _
    rw [Nat.add_comm 1 f]
    rfl
  | JObj.cons k v tl, f, rest => by
    show parseObjRest ((2 + sizeV v + sizeO tl) + f)
      ((',' :: (('"' :: (escBody k.data ++ ['"'])) ++ (':' :: strJ v) ++ strORest tl)) ++ rest) = _
    rw [show (2 + sizeV v + sizeO tl) + f = ((sizeV v + (sizeO tl + f)) + 1) + 1 from by omega]
    simp only [List.cons_append, List.append_assoc, List.singleton_append, List.nil_append]
    rw [parseObjRest.eq_def]
    dsimp only
    rw [if_neg (by decide : ¬(',' : Char) = '}'), if_pos (rfl : (',' : Char) = ','),
      if_pos (rfl : ('"' : Char) = '"')]
    rw [parseMember.eq_def]
    dsimp only
    rw [parseStrBody_escBody k.data (':' :: (strJ v ++ (strORest tl ++ rest)))]
    dsimp only
    rw [if_pos (rfl : (':' : Char) = ':')]
    rw [parseV_strJ v (sizeO tl + f) (strORest tl ++ rest) (headDigit_strORest tl rest)]
    dsimp only
    rw [show sizeV v + (sizeO tl + f) = sizeO tl + (sizeV v + f) from by omega]
    rw [parseObjRest_strORest tl (sizeV v + f) rest]

end

mutual

theorem sizeV_le : ∀ (j : Json), sizeV j ≤ 2 * (strJ j).length
  | Json.null => by simp [sizeV, strJ]
  | Json.bool true => by simp [sizeV, strJ]
  | Json.bool false => by simp [sizeV, strJ]
  | Json.num (Int.ofNat m) => by
    obtain ⟨c, t, hct, _⟩ := natToChars_cons m
    show sizeV (Json.num (Int.ofNat m)) ≤ 2 * (natToChars m).length
    rw [hct]
    simp [sizeV]
    omega
  | Json.num (Int.negSucc m) => by
    show sizeV (Json.num (Int.negSucc m)) ≤ 2 * (('-' :: natToChars (m + 1)).length)
    simp [sizeV]
    omega
  | Json.str s => by
    show sizeV (Json.str s) ≤ 2 * (('"' :: (escBody s.data ++ ['"'])).length)
    simp [sizeV]
    omega
  | Json.arr xs => by
    have h := sizeA_le xs
    show 1 + sizeR xs ≤ 2 * (('[' :: strA xs).length)
    simp only [List.length_cons]
    omega
  | Json.obj fs => by
    have h := sizeO_le1 fs
    show 1 + sizeO fs ≤ 2 * (('{' :: strO fs).length)
    simp only [List.length_cons]
    omega

theorem sizeA_le : ∀ (xs : JArr), sizeR xs ≤ 2 * (strA xs).length + 1
  | JArr.nil => by simp [sizeR, strA]
  | JArr.cons v tl => by
    have h1 := sizeV_le v
    have h2 := sizeR_le tl
    show 1 + sizeV v + sizeR tl ≤ 2 * ((strJ v ++ strARest tl).length) + 1
    simp only [List.length_append]
    omega

theorem sizeR_le : ∀ (xs : JArr), sizeR xs + 1 ≤ 2 * (strARest xs).length
  | JArr.nil => by simp [sizeR, strARest]
  | JArr.cons v tl => by
    have h1 := sizeV_le v
    have h2 := sizeR_le tl
    show (1 + sizeV v + sizeR tl) + 1 ≤ 2 * ((',' :: (strJ v ++ strARest tl)).length)
    simp only [List.length_cons, List.length_append]
    omega

theorem sizeO_le1 : ∀ (fs : JObj), sizeO fs ≤ 2 * (strO fs).length + 1
  | JObj.nil => by simp [sizeO, strO]
  | JObj.cons k v tl => by
    have h1 := sizeV_le v
    have h2 := sizeO_le2 tl
    show 2 + sizeV v + sizeO tl ≤
      2 * ((('"' :: (escBody k.data ++ ['"'])) ++ (':' :: strJ v) ++ strORest tl).length) + 1
    simp only [List.length_append, List.length_cons]
    omega

theorem sizeO_le2 : ∀ (fs : JObj), sizeO fs + 1 ≤ 2 * (strORest fs).length
  | JObj.nil => by simp [sizeO, strORest]
  | JObj.cons k v tl => by
    have h1 := sizeV_le v
    have h2 := sizeO_le2 tl
    show (2 + sizeV v + sizeO tl) + 1 ≤
      2 * ((',' :: (('"' :: (escBody k.data ++ ['"'])) ++ (':' :: strJ v) ++ strORest tl)).length)
    simp only [List.length_append, List.length_cons]
    omega

end

/-- Claim C6.  Decoding the encoding of a message is the identity:
`_unpack (_pack m)` recovers `m` structurally for every value built
from the wire taxonomy (keyed records, strings, integral numbers,
booleans, null, arrays, nesting) — `_pack` wraps `JSON.stringify`
output in a `Blob`, `_unpack` reads the `Blob` back as text and
`JSON.parse`s it, and the serializer's grammar is parsed back exactly,
string escapes included. -/
theorem claim_C6_roundtrip (j : Json) : Zellous.unpack (Zellous.pack j) = some j := by
  show parseS (stringifyS j) = some j
  unfold parseS stringifyS
  have hdata : (String.mk (strJ j)).data = strJ j := rfl
  rw [hdata]
  have hb : sizeV j ≤ 2 * (strJ j).length := sizeV_le j
  rw [show 2 * (strJ j).length + 2 = sizeV j + (2 * (strJ j).length + 2 - sizeV j) from by omega]
  have h := parseV_strJ j (2 * (strJ j).length + 2 - sizeV j) [] rfl
  rw [List.append_nil] at h
  rw [h]
